import Mathlib

/-!
Verification of the SecureStart / AppLock interception core against its
specification.  The definitions below are a shallow embedding of the Python
sources:

* `src/core/app_monitor.py`   — the polling loop, process diffing, matching
  and interception dispatch (`start_monitoring`, `_check_new_processes`,
  `_intercept_process`);
* `src/core/config_manager.py` — `get_locked_apps`, `verify_password`,
  `log_access_attempt`, `get_setting`;
* `src/utils/system_utils.py`  — `prompt_for_password`.

External effects (psutil process enumeration, the sqlite store, bcrypt, the
Tk dialog, process termination) are modelled as explicit inputs/oracles, and
the side effects of a dispatch are reified as a list of `AgentAction`s in
the order the source performs them.
-/

/-- A process record as read from `psutil.process_iter(['pid','name','exe',
'create_time'])`: pid, optional executable path (psutil may return `None`),
and creation time (`process_info.get('create_time', 0)` in the source, hence
optional with default `0`). -/
structure ProcRecord where
  pid : Nat
  exe : Option String
  create_time : Option Int
deriving DecidableEq, Repr

/-- One element yielded by the process enumeration: either a readable record,
or a process whose metadata read raises `NoSuchProcess` / `AccessDenied` /
`ZombieProcess` (the source catches these per-process and `continue`s). -/
inductive ProcEntry where
  | ok (p : ProcRecord)
  | unreadable
deriving DecidableEq, Repr

/-- A row of the `locked_apps` table (`app_path`, `app_name`, `app_type`
('exe' or 'uwp'), `is_active`). -/
structure LockedApp where
  app_path : String
  app_name : String
  app_type : String
  is_active : Bool
deriving DecidableEq, Repr

/-- The readable records of an enumeration, in order. -/
def okRecords (es : List ProcEntry) : List ProcRecord :=
  es.filterMap fun e =>
    match e with
    | .ok p => some p
    | .unreadable => none

/-- `ConfigManager.get_locked_apps`: returns the rows with `is_active = 1`
(the `WHERE is_active = 1` clause; the `ORDER BY` is irrelevant here). -/
def get_locked_apps (db : List LockedApp) : List LockedApp :=
  db.filter fun a => a.is_active

/-- Model of Python `str.lower()`: character-wise lowercasing. -/
def lowerStr (s : String) : String :=
  String.mk (s.data.map Char.toLower)

/-- Membership of a lowered executable path in the `locked_paths` dictionary
built in `_check_new_processes` from the active apps of kind `'exe'`:
`{app['app_path'].lower(): app for app in locked_apps if app['app_type'] == 'exe'}`. -/
def locked_paths_member (db : List LockedApp) (e : String) : Bool :=
  (get_locked_apps db).any fun a =>
    a.app_type == "exe" && lowerStr a.app_path == lowerStr e

/-- The per-process dispatch condition of `_check_new_processes`:
pid not previously seen, truthy `exe` path whose lowering is a key of
`locked_paths`, and `time.time() - create_time <= 5`. -/
def shouldIntercept (seen : Finset Nat) (db : List LockedApp) (now : Int)
    (p : ProcRecord) : Bool :=
  decide (p.pid ∉ seen) &&
  (match p.exe with
   | none => false
   | some e => !(e == "") && locked_paths_member db e) &&
  decide (now - p.create_time.getD 0 ≤ 5)

/-- One step of the enumeration loop in `_check_new_processes`: an
unreadable process is skipped (`except ...: continue`); a readable one has
its pid added to `current_processes` and, when the dispatch condition holds
(checked against the cycle's initial `self.seen_processes`), is dispatched
to `_intercept_process`. -/
def processEntry (seen : Finset Nat) (db : List LockedApp) (now : Int)
    (acc : Finset Nat × List ProcRecord) (e : ProcEntry) :
    Finset Nat × List ProcRecord :=
  match e with
  | .unreadable => acc
  | .ok p =>
    if shouldIntercept seen db now p then
      (insert p.pid acc.1, acc.2 ++ [p])
    else
      (insert p.pid acc.1, acc.2)

/-- `AppMonitor._check_new_processes`: folds the enumeration starting from an
empty `current_processes` set, then replaces `self.seen_processes` with the
accumulated pids.  Returns (new SeenSet, processes dispatched in order). -/
def check_new_processes (seen : Finset Nat) (db : List LockedApp) (now : Int)
    (entries : List ProcEntry) : Finset Nat × List ProcRecord :=
  entries.foldl (processEntry seen db now) (∅, [])

/-- The per-iteration environment of the monitoring loop: the
`protection_enabled` setting read this cycle, the registry snapshot, the
current wall-clock time and the process enumeration. -/
structure CycleInput where
  enabled : Bool
  db : List LockedApp
  now : Int
  entries : List ProcEntry
deriving DecidableEq, Repr

/-- One iteration of the `while self.running` body of `start_monitoring`:
if `protection_enabled` is false the iteration sleeps and `continue`s —
no snapshot is taken and `seen_processes` is left unchanged; otherwise
`_check_new_processes` runs. -/
def monitor_cycle (seen : Finset Nat) (c : CycleInput) :
    Finset Nat × List ProcRecord :=
  if c.enabled then check_new_processes seen c.db c.now c.entries
  else (seen, [])

/-- A run of consecutive monitoring iterations, threading `seen_processes`
and concatenating the dispatched processes. -/
def monitor_run (seen : Finset Nat) : List CycleInput → Finset Nat × List ProcRecord
  | [] => (seen, [])
  | c :: cs =>
    let r := monitor_cycle seen c
    let rest := monitor_run r.1 cs
    (rest.1, r.2 ++ rest.2)

/-- The observable environment of one `while self.running` iteration:
the `running` flag read at the top, whether an exception reaches the
`except Exception` handler of `start_monitoring` (it is caught and printed),
and the cycle's inputs. -/
structure LoopInput where
  running : Bool
  raisesError : Bool
  cyc : CycleInput
deriving DecidableEq, Repr

/-- `AppMonitor.start_monitoring`'s loop over a finite trace of iteration
environments: stops as soon as the `running` flag reads false, otherwise
performs the cycle (errors reaching the loop-level handler are caught and do
not alter control flow).  Returns (iterations executed, final SeenSet,
all dispatched processes). -/
def run_loop (seen : Finset Nat) : List LoopInput → Nat × Finset Nat × List ProcRecord
  | [] => (0, seen, [])
  | i :: rest =>
    if i.running then
      let r := monitor_cycle seen i.cyc
      let next := run_loop r.1 rest
      (next.1 + 1, next.2.1, r.2 ++ next.2.2)
    else (0, seen, [])

/-- Whether an enumeration entry is readable. -/
def isOkEntry : ProcEntry → Bool
  | .ok _ => true
  | .unreadable => false

/-- Oracle for the state the credential verifier reads: the result of the
`SELECT value FROM settings WHERE key = 'master_password_hash'` fetch
(which itself may raise), and the outcome of `bcrypt.checkpw` on a
candidate password and stored hash (which may raise). -/
structure VerifierOracle where
  storedHash : Except Unit (Option String)
  checkpw : String → String → Except Unit Bool

/-- `ConfigManager.verify_password`: inside a `try`, fetch the stored hash;
`if not result: return False`; otherwise return `bcrypt.checkpw(...)`; any
exception is caught and yields `False`. -/
def verify_password (o : VerifierOracle) (password : String) : Bool :=
  match o.storedHash with
  | .error _ => false
  | .ok none => false
  | .ok (some h) =>
    match o.checkpw password h with
    | .error _ => false
    | .ok b => b

/-- `prompt_for_password` of `src/utils/system_utils.py`, with the dialog
reified: returns (granted, dialog shown).  The source checks
`has_password()` first (error box, deny), then `protection_enabled`
(grant without a dialog), then shows the `PasswordDialog`; `dialogResult`
is what `dialog.show()` returns (`none` on cancel or countdown timeout). -/
def prompt_for_password_run (hasPassword protectionEnabled : Bool)
    (dialogResult : Option String) (o : VerifierOracle) : Bool × Bool :=
  if hasPassword = false then (false, false)
  else if protectionEnabled = false then (true, false)
  else
    match dialogResult with
    | none => (false, true)
    | some pw => (verify_password o pw, true)

/-- The boolean returned by `prompt_for_password`. -/
def prompt_for_password (hasPassword protectionEnabled : Bool)
    (dialogResult : Option String) (o : VerifierOracle) : Bool :=
  (prompt_for_password_run hasPassword protectionEnabled dialogResult o).1

/-- The credential verifier accepts `pw`: a hash is stored and
`bcrypt.checkpw` returns `True` without raising. -/
def verifierAccepts (o : VerifierOracle) (pw : String) : Prop :=
  ∃ h, o.storedHash = .ok (some h) ∧ o.checkpw pw h = .ok true

/-- An error is raised during verification: the hash fetch raises, or
`bcrypt.checkpw` raises on the stored hash. -/
def verifierErrored (o : VerifierOracle) (pw : String) : Prop :=
  o.storedHash = .error () ∨
  ∃ h, o.storedHash = .ok (some h) ∧ o.checkpw pw h = .error ()

/-- The psutil exceptions caught around termination:
`NoSuchProcess`, `AccessDenied`, `ZombieProcess`. -/
inductive TermErr where
  | noSuchProcess
  | accessDenied
  | zombie
deriving DecidableEq, Repr

/-- Behaviour of `process.wait(timeout=3)`: the process exits within the
grace period, the call raises `TimeoutExpired` (process still alive), or it
raises one of the psutil errors caught by the outer handler. -/
inductive WaitRes where
  | exited
  | timedOut
  | raised (e : TermErr)
deriving DecidableEq, Repr

/-- Oracle for how the target process reacts to the termination sequence:
whether `terminate()` raises, what `wait(timeout=3)` does, and whether
`kill()` raises. -/
structure ProcBehavior where
  terminateRes : Option TermErr
  waitRes : WaitRes
  killRes : Option TermErr
deriving DecidableEq, Repr

/-- The observable side effects of one interception dispatch, in order. -/
inductive AgentAction where
  | showDialog
  | logAttempt (granted : Bool)
  | terminate
  | wait (seconds : Nat)
  | kill
  | reportTermFailure
deriving DecidableEq, Repr

/-- The denial branch of `_intercept_process` (lines 147–158):
`process.terminate()`; then `process.wait(timeout=3)`, and on
`TimeoutExpired` `process.kill()`; `NoSuchProcess`/`AccessDenied`/
`ZombieProcess` anywhere in this block are caught once and reported
("Could not terminate ... - insufficient permissions"); nothing is
retried. -/
def terminate_sequence (b : ProcBehavior) : List AgentAction :=
  match b.terminateRes with
  | some _ => [.terminate, .reportTermFailure]
  | none =>
    match b.waitRes with
    | .exited => [.terminate, .wait 3]
    | .raised _ => [.terminate, .wait 3, .reportTermFailure]
    | .timedOut =>
      match b.killRes with
      | none => [.terminate, .wait 3, .kill]
      | some _ => [.terminate, .wait 3, .kill, .reportTermFailure]

/-- `wait(timeout=3)` raised a psutil error (not `TimeoutExpired`). -/
def waitRaised : WaitRes → Bool
  | .raised _ => true
  | _ => false

/-- The termination sequence failed: `terminate()` raised, or `wait` raised,
or the force `kill()` raised. -/
def termFailed (b : ProcBehavior) : Prop :=
  b.terminateRes ≠ none ∨
  (b.terminateRes = none ∧ waitRaised b.waitRes = true) ∨
  (b.terminateRes = none ∧ b.waitRes = .timedOut ∧ b.killRes ≠ none)

/-- Dialog-display action of the prompt step. -/
def promptActs (shown : Bool) : List AgentAction :=
  if shown then [.showDialog] else []

/-- `ConfigManager.log_access_attempt`: if the `log_attempts` setting is
false it returns immediately without touching the audit log; otherwise it
inserts exactly one row recording whether access was granted. -/
def logActs (logAttempts granted : Bool) : List AgentAction :=
  if logAttempts then [.logAttempt granted] else []

/-- The enforcement step of `_intercept_process`: granted means no further
action; denied runs the termination sequence. -/
def enforceActs (granted : Bool) (b : ProcBehavior) : List AgentAction :=
  if granted then [] else terminate_sequence b

/-- The environment of one `_intercept_process` dispatch: the configuration
and dialog behaviour seen by `prompt_for_password`, the `log_attempts`
setting seen by `log_access_attempt`, and the target process's reaction to
termination. -/
structure DispatchInput where
  hasPassword : Bool
  protectionEnabled : Bool
  dialogResult : Option String
  verifier : VerifierOracle
  logAttempts : Bool
  behavior : ProcBehavior

/-- `AppMonitor._intercept_process`: prompt (`prompt_for_password`), then
`log_access_attempt`, then the enforcement branch on `granted`.  Returns
(granted, side effects in source order). -/
def intercept_process (d : DispatchInput) : Bool × List AgentAction :=
  let pr := prompt_for_password_run d.hasPassword d.protectionEnabled
      d.dialogResult d.verifier
  (pr.1, promptActs pr.2 ++ logActs d.logAttempts pr.1 ++ enforceActs pr.1 d.behavior)

/-- Whether an action is an audit-log append. -/
def isLogAttempt : AgentAction → Bool
  | .logAttempt _ => true
  | _ => false

/-- The pids of the readable processes of an enumeration. -/
def pidsOf (es : List ProcEntry) : List Nat :=
  (okRecords es).map fun p => p.pid

theorem okRecords_cons_ok (p : ProcRecord) (es : List ProcEntry) :
    okRecords (ProcEntry.ok p :: es) = p :: okRecords es := rfl

theorem okRecords_cons_unreadable (es : List ProcEntry) :
    okRecords (ProcEntry.unreadable :: es) = okRecords es := rfl

theorem mem_okRecords (es : List ProcEntry) (r : ProcRecord) :
    r ∈ okRecords es ↔ ProcEntry.ok r ∈ es := by
  induction es with
  | nil => simp [okRecords]
  | cons e rest ih =>
    cases e with
    | ok p => simp [okRecords_cons_ok, List.mem_cons, ih]
    | unreadable => simp [okRecords_cons_unreadable, List.mem_cons, ih]

theorem foldl_processEntry (seen : Finset Nat) (db : List LockedApp) (now : Int)
    (es : List ProcEntry) :
    ∀ (s0 : Finset Nat) (acc0 : List ProcRecord),
      es.foldl (processEntry seen db now) (s0, acc0) =
        (s0 ∪ (pidsOf es).toFinset,
         acc0 ++ (okRecords es).filter (shouldIntercept seen db now)) := by
  induction es with
  | nil => intro s0 acc0; simp [pidsOf, okRecords]
  | cons e rest ih =>
    intro s0 acc0
    cases e with
    | unreadable =>
      rw [List.foldl_cons]
      show rest.foldl _ (s0, acc0) = _
      rw [ih]
      simp [pidsOf, okRecords_cons_unreadable]
    | ok p =>
      rw [List.foldl_cons]
      by_cases h : shouldIntercept seen db now p = true
      · show rest.foldl _ (processEntry seen db now (s0, acc0) (.ok p)) = _
        rw [show processEntry seen db now (s0, acc0) (.ok p) =
              (insert p.pid s0, acc0 ++ [p]) by simp [processEntry, h]]
        rw [ih]
        simp [pidsOf, okRecords_cons_ok, List.filter_cons, h,
          Finset.insert_union, Finset.union_insert, List.append_assoc]
      · show rest.foldl _ (processEntry seen db now (s0, acc0) (.ok p)) = _
        rw [show processEntry seen db now (s0, acc0) (.ok p) =
              (insert p.pid s0, acc0) by simp [processEntry, h]]
        rw [ih]
        simp [pidsOf, okRecords_cons_ok, List.filter_cons, h,
          Finset.insert_union, Finset.union_insert]

theorem check_new_processes_eq (seen : Finset Nat) (db : List LockedApp)
    (now : Int) (es : List ProcEntry) :
    check_new_processes seen db now es =
      ((pidsOf es).toFinset,
       (okRecords es).filter (shouldIntercept seen db now)) := by
  rw [check_new_processes, foldl_processEntry]
  simp

theorem shouldIntercept_iff (seen : Finset Nat) (db : List LockedApp)
    (now : Int) (p : ProcRecord) :
    shouldIntercept seen db now p = true ↔
      p.pid ∉ seen ∧
      (∃ e, p.exe = some e ∧ e ≠ "" ∧
        ∃ a ∈ db, a.is_active = true ∧ a.app_type = "exe" ∧
          lowerStr a.app_path = lowerStr e) ∧
      now - p.create_time.getD 0 ≤ 5 := by
  cases hx : p.exe with
  | none => simp [shouldIntercept, hx]
  | some e =>
    simp [shouldIntercept, hx, locked_paths_member, get_locked_apps,
      List.any_eq_true, List.mem_filter, and_assoc, and_comm, and_left_comm]

theorem monitor_cycle_disabled (seen : Finset Nat) (c : CycleInput)
    (h : c.enabled = false) : monitor_cycle seen c = (seen, []) := by
  simp [monitor_cycle, h]

theorem monitor_cycle_enabled (seen : Finset Nat) (c : CycleInput)
    (h : c.enabled = true) :
    monitor_cycle seen c =
      ((pidsOf c.entries).toFinset,
       (okRecords c.entries).filter (shouldIntercept seen c.db c.now)) := by
  rw [monitor_cycle, if_pos h, check_new_processes_eq]

theorem dispatched_mem_newSeen (s : Finset Nat) (c : CycleInput) (r : ProcRecord)
    (hr : r ∈ (monitor_cycle s c).2) : r.pid ∈ (monitor_cycle s c).1 := by
  by_cases h : c.enabled = true
  · rw [monitor_cycle_enabled s c h] at hr ⊢
    have h1 := (List.mem_filter.mp hr).1
    simp only [List.mem_toFinset, pidsOf, List.mem_map]
    exact ⟨r, h1, rfl⟩
  · rw [monitor_cycle_disabled s c (by simpa using h)] at hr
    exact absurd hr (List.not_mem_nil r)

theorem monitor_run_countP_eq_zero (q : Nat) (cs : List CycleInput) :
    ∀ seen : Finset Nat, q ∈ seen →
      (∀ c ∈ cs, c.enabled = true → q ∈ pidsOf c.entries) →
      (monitor_run seen cs).2.countP (fun r => r.pid == q) = 0 := by
  induction cs with
  | nil => intro seen _ _; rfl
  | cons c cs ih =>
    intro seen hq halive
    simp only [monitor_run, List.countP_append]
    by_cases hce : c.enabled = true
    · rw [monitor_cycle_enabled seen c hce]
      dsimp only
      refine Nat.add_eq_zero.mpr ⟨?_, ?_⟩
      · rw [List.countP_eq_zero]
        intro r hr
        have hsi := (List.mem_filter.mp hr).2
        have hnot := ((shouldIntercept_iff seen c.db c.now r).mp hsi).1
        simp only [beq_iff_eq]
        intro hrq
        exact hnot (hrq ▸ hq)
      · exact ih _ (List.mem_toFinset.mpr (halive c (List.mem_cons_self c cs) hce))
          (fun c' hc' => halive c' (List.mem_cons_of_mem c hc'))
    · rw [monitor_cycle_disabled seen c (by simpa using hce)]
      refine Nat.add_eq_zero.mpr ⟨rfl, ?_⟩
      exact ih seen hq (fun c' hc' => halive c' (List.mem_cons_of_mem c hc'))

theorem monitor_run_countP_le_one (q : Nat) (cs : List CycleInput) :
    ∀ seen : Finset Nat,
      (∀ c ∈ cs, c.enabled = true → q ∈ pidsOf c.entries) →
      (∀ c ∈ cs, (pidsOf c.entries).Nodup) →
      (monitor_run seen cs).2.countP (fun r => r.pid == q) ≤ 1 := by
  induction cs with
  | nil => intro seen _ _; simp [monitor_run]
  | cons c cs ih =>
    intro seen halive hnodup
    simp only [monitor_run, List.countP_append]
    by_cases hce : c.enabled = true
    · rw [monitor_cycle_enabled seen c hce]
      dsimp only
      have hrest :
          (monitor_run (pidsOf c.entries).toFinset cs).2.countP (fun r => r.pid == q) = 0 :=
        monitor_run_countP_eq_zero q cs _
          (List.mem_toFinset.mpr (halive c (List.mem_cons_self c cs) hce))
          (fun c' hc' => halive c' (List.mem_cons_of_mem c hc'))
      rw [hrest]
      have hsub : ((okRecords c.entries).filter
            (shouldIntercept seen c.db c.now)).countP (fun r => r.pid == q) ≤
          (okRecords c.entries).countP (fun r => r.pid == q) :=
        (List.filter_sublist _).countP_le _
      have hmap : (okRecords c.entries).countP (fun r => r.pid == q) =
          (pidsOf c.entries).countP (fun x => x == q) := by
        rw [pidsOf, List.countP_map]
        rfl
      have hone : (pidsOf c.entries).countP (fun x => x == q) ≤ 1 := by
        rw [show (pidsOf c.entries).countP (fun x => x == q) =
              (pidsOf c.entries).count q from rfl]
        exact List.nodup_iff_count_le_one.mp (hnodup c (List.mem_cons_self c cs)) q
      omega
    · rw [monitor_cycle_disabled seen c (by simpa using hce)]
      simp only [List.countP_nil, Nat.zero_add]
      exact ih seen (fun c' hc' => halive c' (List.mem_cons_of_mem c hc'))
        (fun c' hc' => hnodup c' (List.mem_cons_of_mem c hc'))

/-- C4: in a poll cycle, a process is dispatched for interception if and only
if it was observed (readable) in the cycle's enumeration, its pid is not in
the SeenSet, its executable path is present, non-empty and case-insensitively
equal to the path of an active registry entry of kind 'exe', and its
creation timestamp is within 5 seconds of the current time; in particular a
registry-matched process whose creation time is older than the window is
never dispatched. -/
theorem intercepted_iff_new_matched_recent (seen : Finset Nat)
    (db : List LockedApp) (now : Int) (es : List ProcEntry) (r : ProcRecord) :
    r ∈ (check_new_processes seen db now es).2 ↔
      ProcEntry.ok r ∈ es ∧ r.pid ∉ seen ∧
      (∃ e, r.exe = some e ∧ e ≠ "" ∧
        ∃ a ∈ db, a.is_active = true ∧ a.app_type = "exe" ∧
          lowerStr a.app_path = lowerStr e) ∧
      now - r.create_time.getD 0 ≤ 5 := by
  rw [check_new_processes_eq]
  simp only [List.mem_filter, mem_okRecords, shouldIntercept_iff]

/-- C6: after every completed enabled poll cycle (`_check_new_processes`
runs to completion), the SeenSet equals exactly the set of pids observed in
that cycle's snapshot — it is replaced wholesale, independently of its
previous value, so it never accumulates pids across cycles. -/
theorem seen_replaced_wholesale (seen : Finset Nat) (c : CycleInput)
    (h : c.enabled = true) :
    (monitor_cycle seen c).1 = (pidsOf c.entries).toFinset := by
  rw [monitor_cycle_enabled seen c h]

/-- Witness for C6 at a concrete cycle: a stale pid 7 is dropped and the
SeenSet becomes exactly the observed pid 3. -/
theorem seen_replaced_wholesale_witness :
    (monitor_cycle {7}
      (⟨true, [], 0, [ProcEntry.ok ⟨3, none, none⟩]⟩ : CycleInput)).1 =
      ({3} : Finset Nat) :=
  (seen_replaced_wholesale {7}
    (⟨true, [], 0, [ProcEntry.ok ⟨3, none, none⟩]⟩ : CycleInput) rfl).trans
    (by decide)

/-- C5: for every OS pid, at most one interception is dispatched per
continuous process lifetime: across any run of cycles in which the pid is
present in every enabled cycle's snapshot (and snapshots list each pid at
most once), the pid is dispatched at most once; and a cycle that dispatches
a process always leaves that pid in the SeenSet. -/
theorem at_most_one_attempt_per_pid (seen : Finset Nat) (cs : List CycleInput)
    (q : Nat)
    (halive : ∀ c ∈ cs, c.enabled = true → q ∈ pidsOf c.entries)
    (hnodup : ∀ c ∈ cs, (pidsOf c.entries).Nodup) :
    (monitor_run seen cs).2.countP (fun r => r.pid == q) ≤ 1 ∧
    ∀ (s : Finset Nat) (c : CycleInput) (r : ProcRecord),
      r ∈ (monitor_cycle s c).2 → r.pid ∈ (monitor_cycle s c).1 :=
  ⟨monitor_run_countP_le_one q cs seen halive hnodup,
   fun s c r hr => dispatched_mem_newSeen s c r hr⟩

/-- Witness for C5: pid 100 launches a protected app, stays alive for two
enabled cycles, and is dispatched at most once across the run. -/
theorem at_most_one_attempt_per_pid_witness :
    (monitor_run ∅
      [⟨true, [⟨"a.exe", "a", "exe", true⟩], 1000,
          [ProcEntry.ok ⟨100, some "A.EXE", some 1000⟩]⟩,
       ⟨true, [⟨"a.exe", "a", "exe", true⟩], 1001,
          [ProcEntry.ok ⟨100, some "A.EXE", some 1000⟩]⟩]).2.countP
      (fun r => r.pid == 100) ≤ 1 :=
  (at_most_one_attempt_per_pid ∅
    [⟨true, [⟨"a.exe", "a", "exe", true⟩], 1000,
        [ProcEntry.ok ⟨100, some "A.EXE", some 1000⟩]⟩,
     ⟨true, [⟨"a.exe", "a", "exe", true⟩], 1001,
        [ProcEntry.ok ⟨100, some "A.EXE", some 1000⟩]⟩] 100
    (by decide) (by decide)).1

/-- C1 (amended): while the agent is Running with the protection-enabled
flag false, a poll cycle issues no prompt and takes no snapshot — SeenSet is
left unchanged, not replaced; consequently a process that launches while
protection is disabled is prompted on the first re-enabled cycle exactly
when it is new to the stale SeenSet, registry-matched and still within the
5-second recency window, and only processes older than the window escape
prompting. -/
theorem disabled_cycle_skips_everything (seen : Finset Nat) (c : CycleInput)
    (h : c.enabled = false) : monitor_cycle seen c = (seen, []) :=
  monitor_cycle_disabled seen c h

/-- Witness for the amended C1 at a concrete disabled cycle. -/
theorem disabled_cycle_skips_everything_witness :
    monitor_cycle {1}
      (⟨false, [], 0, [ProcEntry.ok ⟨2, none, none⟩]⟩ : CycleInput) =
      ({1}, []) :=
  disabled_cycle_skips_everything {1}
    (⟨false, [], 0, [ProcEntry.ok ⟨2, none, none⟩]⟩ : CycleInput) rfl

/-- Counterexample to C1 as stated: a protected app (path a.exe, active,
kind exe) launches as pid 100 during a disabled cycle at time 1000.  The
disabled cycle does not replace SeenSet with the observed pids (it stays ∅
rather than becoming {100}), and when protection is re-enabled one second
later the still-running process IS dispatched for a prompt. -/
theorem disabled_cycle_claim_cex :
    (monitor_cycle ∅
        (⟨false, [⟨"a.exe", "a", "exe", true⟩], 1000,
            [ProcEntry.ok ⟨100, some "A.EXE", some 1000⟩]⟩ : CycleInput)).1 ≠
        ({100} : Finset Nat) ∧
    (⟨100, some "A.EXE", some 1000⟩ : ProcRecord) ∈
      (monitor_run ∅
        [⟨false, [⟨"a.exe", "a", "exe", true⟩], 1000,
            [ProcEntry.ok ⟨100, some "A.EXE", some 1000⟩]⟩,
         ⟨true, [⟨"a.exe", "a", "exe", true⟩], 1001,
            [ProcEntry.ok ⟨100, some "A.EXE", some 1000⟩]⟩]).2 := by
  decide

theorem okRecords_filter_isOkEntry (es : List ProcEntry) :
    okRecords (es.filter isOkEntry) = okRecords es := by
  induction es with
  | nil => rfl
  | cons e rest ih =>
    cases e with
    | ok p =>
      simp [List.filter_cons, isOkEntry, okRecords_cons_ok, ih]
    | unreadable =>
      simp [List.filter_cons, isOkEntry, okRecords_cons_unreadable, ih]

theorem run_loop_iterations (seen : Finset Nat) (l : List LoopInput) :
    (run_loop seen l).1 = (l.takeWhile (fun i => i.running)).length := by
  induction l generalizing seen with
  | nil => rfl
  | cons i rest ih =>
    by_cases h : i.running = true
    · simp [run_loop, List.takeWhile_cons, h, ih]
    · simp only [Bool.not_eq_true] at h
      simp [run_loop, List.takeWhile_cons, h]

theorem check_new_processes_skips_unreadable (seen : Finset Nat)
    (db : List LockedApp) (now : Int) (es : List ProcEntry) :
    check_new_processes seen db now es =
      check_new_processes seen db now (es.filter isOkEntry) := by
  rw [check_new_processes_eq, check_new_processes_eq, pidsOf, pidsOf,
    okRecords_filter_isOkEntry]

theorem run_loop_ignores_error_field (l : List LoopInput) :
    ∀ (l' : List LoopInput) (seen : Finset Nat),
      l.map (fun i => (i.running, i.cyc)) = l'.map (fun i => (i.running, i.cyc)) →
      run_loop seen l = run_loop seen l' := by
  induction l with
  | nil =>
    intro l' seen h
    cases l' with
    | nil => rfl
    | cons i' rest' => simp at h
  | cons i rest ih =>
    intro l' seen h
    cases l' with
    | nil => simp at h
    | cons i' rest' =>
      simp only [List.map_cons, List.cons.injEq, Prod.mk.injEq] at h
      obtain ⟨⟨hr, hc⟩, hrest⟩ := h
      by_cases hrun : i.running = true
      · simp only [run_loop, hrun, hr ▸ hrun, if_true, hc]
        rw [ih rest' (monitor_cycle seen i'.cyc).1 hrest]
      · simp only [Bool.not_eq_true] at hrun
        simp only [run_loop, hrun, hr ▸ hrun, Bool.false_eq_true, if_false]

/-- C8: the interception loop never halts because of an error — the number
of iterations executed equals the length of the prefix of the trace on which
the running flag stays true (only clearing the flag stops it); per-process
enumeration errors are swallowed so a cycle computes exactly what it would
compute on the readable entries alone; and errors reaching the loop-level
handler have no effect on the run. -/
theorem loop_never_halts_on_error :
    (∀ (seen : Finset Nat) (l : List LoopInput),
       (run_loop seen l).1 = (l.takeWhile (fun i => i.running)).length) ∧
    (∀ (seen : Finset Nat) (db : List LockedApp) (now : Int) (es : List ProcEntry),
       check_new_processes seen db now es =
         check_new_processes seen db now (es.filter isOkEntry)) ∧
    (∀ (seen : Finset Nat) (l l' : List LoopInput),
       l.map (fun i => (i.running, i.cyc)) = l'.map (fun i => (i.running, i.cyc)) →
       run_loop seen l = run_loop seen l') :=
  ⟨fun seen l => run_loop_iterations seen l,
   fun seen db now es => check_new_processes_skips_unreadable seen db now es,
   fun seen l l' h => run_loop_ignores_error_field l l' seen h⟩

/-- Witness for C8: two concrete one-iteration traces that differ only in
the error flag produce identical runs. -/
theorem loop_never_halts_on_error_witness :
    run_loop ∅ [⟨true, true, ⟨true, [], 0, [ProcEntry.unreadable]⟩⟩] =
      run_loop ∅ [⟨true, false, ⟨true, [], 0, [ProcEntry.unreadable]⟩⟩] :=
  loop_never_halts_on_error.2.2 ∅
    [⟨true, true, ⟨true, [], 0, [ProcEntry.unreadable]⟩⟩]
    [⟨true, false, ⟨true, [], 0, [ProcEntry.unreadable]⟩⟩] rfl

theorem verify_password_eq_true_iff (o : VerifierOracle) (pw : String) :
    verify_password o pw = true ↔ verifierAccepts o pw := by
  unfold verify_password verifierAccepts
  cases hs : o.storedHash with
  | error e => cases e; simp [hs]
  | ok oh =>
    cases oh with
    | none => simp [hs]
    | some h =>
      cases hc : o.checkpw pw h with
      | error e => cases e; simp [hs, hc]
      | ok b => cases b <;> simp [hs, hc]

theorem verify_password_errored_eq_false (o : VerifierOracle) (pw : String)
    (herr : verifierErrored o pw) : verify_password o pw = false := by
  rcases herr with hs | ⟨h, hs, hc⟩
  · simp [verify_password, hs]
  · simp [verify_password, hs, hc]

/-- C2: in every interception dispatch in which the password dialog runs,
the outcome is granted if and only if the credential verifier accepts the
submitted secret against the stored hash; if no secret is submitted (cancel
or countdown timeout) the outcome is denied; and if an error is raised
during verification the outcome is denied, never granted (fail-closed). -/
theorem dispatch_outcome_fail_closed (hasPassword protectionEnabled : Bool)
    (dr : Option String) (o : VerifierOracle)
    (hshown : (prompt_for_password_run hasPassword protectionEnabled dr o).2 = true) :
    (∀ pw, dr = some pw →
       (prompt_for_password hasPassword protectionEnabled dr o = true ↔
         verifierAccepts o pw)) ∧
    (dr = none → prompt_for_password hasPassword protectionEnabled dr o = false) ∧
    (∀ pw, dr = some pw → verifierErrored o pw →
       prompt_for_password hasPassword protectionEnabled dr o = false) := by
  cases hasPassword with
  | false => simp [prompt_for_password_run] at hshown
  | true =>
    cases protectionEnabled with
    | false => simp [prompt_for_password_run] at hshown
    | true =>
      refine ⟨?_, ?_, ?_⟩
      · intro pw hpw
        subst hpw
        simpa [prompt_for_password, prompt_for_password_run] using
          verify_password_eq_true_iff o pw
      · intro h
        subst h
        rfl
      · intro pw hpw herr
        subst hpw
        simpa [prompt_for_password, prompt_for_password_run] using
          verify_password_errored_eq_false o pw herr

/-- Witness for C2: with a stored hash and an accepting verifier, a
submitted secret is granted. -/
theorem dispatch_outcome_fail_closed_witness :
    prompt_for_password true true (some "pw")
      ⟨Except.ok (some "h"), fun _ _ => Except.ok true⟩ = true :=
  ((dispatch_outcome_fail_closed true true (some "pw")
      ⟨Except.ok (some "h"), fun _ _ => Except.ok true⟩ rfl).1 "pw" rfl).mpr
    ⟨"h", rfl, rfl⟩

theorem filter_isLogAttempt_promptActs (s : Bool) :
    (promptActs s).filter isLogAttempt = [] := by
  cases s <;> rfl

theorem filter_isLogAttempt_logActs (lg g : Bool) :
    (logActs lg g).filter isLogAttempt =
      if lg then [AgentAction.logAttempt g] else [] := by
  cases lg <;> rfl

theorem filter_isLogAttempt_enforceActs (g : Bool) (b : ProcBehavior) :
    (enforceActs g b).filter isLogAttempt = [] := by
  cases g with
  | true => rfl
  | false =>
    rcases b with ⟨t, w, k⟩
    cases t <;> cases w <;> cases k <;> rfl

/-- C3 (amended): every interception dispatch performs exactly one audit-log
append, recording whether access was granted, when the `log_attempts`
setting is enabled (its default); when `log_attempts` is disabled,
`log_access_attempt` returns without appending anything, so the dispatch
produces no audit entry. -/
theorem audit_entry_iff_logging_enabled (d : DispatchInput) :
    (intercept_process d).2.filter isLogAttempt =
      if d.logAttempts then [AgentAction.logAttempt (intercept_process d).1]
      else [] := by
  rcases d with ⟨hp, pe, dr, o, lg, b⟩
  simp only [intercept_process, List.filter_append,
    filter_isLogAttempt_promptActs, filter_isLogAttempt_logActs,
    filter_isLogAttempt_enforceActs, List.nil_append, List.append_nil]

/-- Counterexample to C3 as stated: with the `log_attempts` setting
disabled, a full dispatch (denied by timeout, process terminated) appends
no audit entry at all, not exactly one. -/
theorem audit_entry_claim_cex :
    ¬ (((intercept_process
        ⟨true, true, none, ⟨Except.ok (some "h"), fun _ _ => Except.ok true⟩,
         false, ⟨none, WaitRes.exited, none⟩⟩).2.filter isLogAttempt).length = 1) := by
  decide

theorem dispatch_actions_spec (g s lg : Bool) (b : ProcBehavior) :
    (g = true →
       AgentAction.terminate ∉ (promptActs s ++ logActs lg g ++ enforceActs g b) ∧
       AgentAction.kill ∉ (promptActs s ++ logActs lg g ++ enforceActs g b)) ∧
    (g = false →
       AgentAction.terminate ∈ (promptActs s ++ logActs lg g ++ enforceActs g b) ∧
       (promptActs s ++ logActs lg g ++ enforceActs g b).count AgentAction.terminate = 1 ∧
       (b.terminateRes = none →
         AgentAction.wait 3 ∈ (promptActs s ++ logActs lg g ++ enforceActs g b)) ∧
       (AgentAction.kill ∈ (promptActs s ++ logActs lg g ++ enforceActs g b) ↔
         b.terminateRes = none ∧ b.waitRes = WaitRes.timedOut) ∧
       (promptActs s ++ logActs lg g ++ enforceActs g b).count AgentAction.kill ≤ 1 ∧
       (promptActs s ++ logActs lg g ++ enforceActs g b).count
         AgentAction.reportTermFailure ≤ 1 ∧
       (AgentAction.reportTermFailure ∈
           (promptActs s ++ logActs lg g ++ enforceActs g b) ↔ termFailed b)) := by
  cases g with
  | true =>
    refine ⟨fun _ => ?_, fun h => by simp at h⟩
    cases s <;> cases lg <;>
      simp [promptActs, logActs, enforceActs]
  | false =>
    refine ⟨fun h => by simp at h, fun _ => ?_⟩
    rcases b with ⟨t, w, k⟩
    cases s <;> cases lg <;> cases t <;> cases w <;> cases k <;>
      simp +decide [promptActs, logActs, enforceActs, terminate_sequence,
        termFailed, waitRaised, List.count_cons, List.count_nil]

/-- C7: when a dispatch outcome is granted the target process is never
terminated (no terminate, no kill); when the outcome is denied, graceful
termination is attempted exactly once, a successful terminate is followed by
a wait of up to 3 seconds, the process is force-killed exactly when it is
still alive after the grace period, and a termination failure (raised by
terminate, wait or kill) is reported at most once and nothing is retried. -/
theorem grant_no_kill_denial_terminates (d : DispatchInput) :
    ((intercept_process d).1 = true →
       AgentAction.terminate ∉ (intercept_process d).2 ∧
       AgentAction.kill ∉ (intercept_process d).2) ∧
    ((intercept_process d).1 = false →
       AgentAction.terminate ∈ (intercept_process d).2 ∧
       (intercept_process d).2.count AgentAction.terminate = 1 ∧
       (d.behavior.terminateRes = none →
         AgentAction.wait 3 ∈ (intercept_process d).2) ∧
       (AgentAction.kill ∈ (intercept_process d).2 ↔
         d.behavior.terminateRes = none ∧ d.behavior.waitRes = WaitRes.timedOut) ∧
       (intercept_process d).2.count AgentAction.kill ≤ 1 ∧
       (intercept_process d).2.count AgentAction.reportTermFailure ≤ 1 ∧
       (AgentAction.reportTermFailure ∈ (intercept_process d).2 ↔
         termFailed d.behavior)) := by
  rcases d with ⟨hp, pe, dr, o, lg, b⟩
  simp only [intercept_process]
  exact dispatch_actions_spec (prompt_for_password_run hp pe dr o).1
    (prompt_for_password_run hp pe dr o).2 lg b

/-- Witness for C7: a denied dispatch (dialog cancelled) against a process
that survives the grace period gets force-killed. -/
theorem grant_no_kill_denial_terminates_witness :
    AgentAction.kill ∈
      (intercept_process
        ⟨true, true, none, ⟨Except.ok (some "h"), fun _ _ => Except.ok true⟩,
         true, ⟨none, WaitRes.timedOut, none⟩⟩).2 :=
  (((grant_no_kill_denial_terminates
      ⟨true, true, none, ⟨Except.ok (some "h"), fun _ _ => Except.ok true⟩,
       true, ⟨none, WaitRes.timedOut, none⟩⟩).2 (by decide)).2.2.2.1).mpr
    (by decide)

/-- C9: if no master password is configured when an intercepted launch
reaches the challenge step, the outcome is denied without the password
dialog ever being shown, and the dispatch proceeds to attempt termination of
the matched process — the user gets no opportunity to submit a secret. -/
theorem no_password_fail_closed (d : DispatchInput)
    (h : d.hasPassword = false) :
    (intercept_process d).1 = false ∧
    AgentAction.showDialog ∉ (intercept_process d).2 ∧
    AgentAction.terminate ∈ (intercept_process d).2 := by
  rcases d with ⟨hp, pe, dr, o, lg, b⟩
  subst h
  refine ⟨rfl, ?_, ?_⟩ <;>
    · simp only [intercept_process, prompt_for_password_run]
      rcases b with ⟨t, w, k⟩
      cases lg <;> cases t <;> cases w <;> cases k <;>
        simp [promptActs, logActs, enforceActs, terminate_sequence]

/-- Witness for C9 at a concrete dispatch with no password configured. -/
theorem no_password_fail_closed_witness :
    (intercept_process
      ⟨false, true, none, ⟨Except.ok none, fun _ _ => Except.ok false⟩,
       true, ⟨none, WaitRes.exited, none⟩⟩).1 = false :=
  (no_password_fail_closed
    ⟨false, true, none, ⟨Except.ok none, fun _ _ => Except.ok false⟩,
     true, ⟨none, WaitRes.exited, none⟩⟩ rfl).1

/-- Counterexample to C10 as stated: the source checks `has_password()`
before `protection_enabled`, so with no master password configured and
protection disabled, `prompt_for_password` returns denied, not granted. -/
theorem protection_disabled_claim_cex :
    ¬ (prompt_for_password false false none
        ⟨Except.ok none, fun _ _ => Except.ok false⟩ = true) := by
  decide

/-- C10 (amended): if a master password is configured and the
protection-enabled setting reads false at the moment the challenge step
runs, `prompt_for_password` returns granted without displaying a dialog and
without consulting the verifier (the result is the same for every verifier
state), and the dispatch neither terminates nor kills the process. -/
theorem protection_disabled_grants (d : DispatchInput)
    (hpw : d.hasPassword = true) (hpe : d.protectionEnabled = false) :
    (intercept_process d).1 = true ∧
    AgentAction.showDialog ∉ (intercept_process d).2 ∧
    AgentAction.terminate ∉ (intercept_process d).2 ∧
    AgentAction.kill ∉ (intercept_process d).2 ∧
    (∀ o' : VerifierOracle,
      prompt_for_password true false d.dialogResult o' = true) := by
  rcases d with ⟨hp, pe, dr, o, lg, b⟩
  subst hpw
  subst hpe
  refine ⟨rfl, ?_, ?_, ?_, fun o' => rfl⟩ <;>
    · simp only [intercept_process, prompt_for_password_run]
      cases lg <;> simp [promptActs, logActs, enforceActs]

/-- Witness for the amended C10 at a concrete dispatch. -/
theorem protection_disabled_grants_witness :
    (intercept_process
      ⟨true, false, none, ⟨Except.ok (some "h"), fun _ _ => Except.ok false⟩,
       true, ⟨none, WaitRes.exited, none⟩⟩).1 = true :=
  (protection_disabled_grants
    ⟨true, false, none, ⟨Except.ok (some "h"), fun _ _ => Except.ok false⟩,
     true, ⟨none, WaitRes.exited, none⟩⟩ rfl rfl).1
